import Mathlib

/-!
Verification development for the tile-stitch mosaic engine (`src/stitch.c`).

The C program is shallowly embedded:
* byte buffers (`unsigned char *`) become `List ℕ` holding values `< 256`;
* `double` arithmetic on pixel values is modelled exactly over `ℚ`
  (the values that occur in the verified paths are exact in binary floating
  point only up to rounding; over `ℚ` the computations are exact);
* the transcendental projection math (`latlon2tile`, `tile2latlon`) is
  modelled over `ℝ` with exact real arithmetic;
* the C conversion of a nonnegative `double` to an unsigned integer type
  (truncation toward zero) is modelled by `Int.floor` followed by `Int.toNat`,
  which agrees with the C semantics whenever the value is nonnegative and in
  range (outside that range the C behaviour is undefined);
* fallible collaborator calls (the image decoders) become `Option`-valued
  parameters.
-/

namespace TileStitch

/-- Read one byte of a flat buffer (`buf[i]` in the source).  Out-of-range
reads return 0; the theorems below only ever rely on in-range reads. -/
def getByte (buf : List ℕ) (i : ℕ) : ℕ := buf.getD i 0

/-- C conversion of a nonnegative `double` to `unsigned char`: truncation
toward zero, i.e. the floor of a nonnegative value. -/
def toByte (q : ℚ) : ℕ := (⌊q⌋).toNat

/-- `stitch.c` lines 532-552, the `i->depth == 4` branch of the compositor:
source-over alpha blending of one RGBA tile pixel `(tr,tg,tb,ta)` into the
canvas at byte offset `off`.  The local names follow the C variables
(`as`,`rs`,... read from the canvas `buf`; `ad`,`rd`,... read from the tile).
Note the faithful reproduction of line 536: the blue canvas byte is read at
`off * 4 + 2`, not `off + 2`. -/
def blendRGBA (buf : List ℕ) (off : ℕ) (tr tg tb ta : ℕ) : List ℕ :=
  let aS : ℚ := (getByte buf (off + 3) : ℚ) / 255
  let rS : ℚ := (getByte buf (off + 0) : ℚ) / 255 * aS
  let gS : ℚ := (getByte buf (off + 1) : ℚ) / 255 * aS
  let bS : ℚ := (getByte buf (off * 4 + 2) : ℚ) / 255 * aS
  let aD : ℚ := (ta : ℚ) / 255
  let rD : ℚ := (tr : ℚ) / 255 * aD
  let gD : ℚ := (tg : ℚ) / 255 * aD
  let bD : ℚ := (tb : ℚ) / 255 * aD
  let aR : ℚ := aS * (1 - aD) + aD
  let rR : ℚ := rS * (1 - aD) + rD
  let gR : ℚ := gS * (1 - aD) + gD
  let bR : ℚ := bS * (1 - aD) + bD
  ((((buf.set (off + 3) (toByte (aR * 255))).set (off + 0)
      (toByte (rR / aR * 255))).set (off + 1)
      (toByte (gR / aR * 255))).set (off + 2)
      (toByte (bR / aR * 255)))

/-- `stitch.c` lines 553-557, the `i->depth == 3` branch: copy RGB, force the
alpha byte to 255. -/
def writeRGB (buf : List ℕ) (off r g b : ℕ) : List ℕ :=
  (((buf.set (off + 0) r).set (off + 1) g).set (off + 2) b).set (off + 3) 255

/-- `stitch.c` lines 558-562, the final `else` branch: replicate channel 0
into R, G and B and force the alpha byte to 255. -/
def writeGray (buf : List ℕ) (off g : ℕ) : List ℕ :=
  (((buf.set (off + 0) g).set (off + 1) g).set (off + 2) g).set (off + 3) 255

/-- A decoded tile (`struct image` in the source). -/
structure Image where
  buf : List ℕ
  depth : ℕ
  width : ℕ
  height : ℕ
deriving DecidableEq, Repr

/-- Destination byte offset of a placed source pixel, `stitch.c` line 529:
`offset = ((y + yoff) * width + x + xoff) * 4`.  Only evaluated when the
destination coordinates are in range, where the value is nonnegative. -/
def destOffset (width : ℕ) (xoff yoff : ℤ) (x y : ℕ) : ℕ :=
  (((( y : ℤ) + yoff) * width + ((x : ℤ) + xoff)) * 4).toNat

/-- `stitch.c` lines 520-564, the body of the per-pixel loop: place source
pixel `(x, y)` of tile `img` into the canvas `buf` (of size
`width x height` RGBA pixels) at offsets `xoff`, `yoff`; destinations outside
`[0,width) x [0,height)` are skipped (line 525). -/
def placePixel (width height : ℕ) (img : Image) (xoff yoff : ℤ)
    (buf : List ℕ) (x y : ℕ) : List ℕ :=
  if (x : ℤ) + xoff < 0 ∨ (y : ℤ) + yoff < 0 ∨ (width : ℤ) ≤ (x : ℤ) + xoff ∨
      (height : ℤ) ≤ (y : ℤ) + yoff then
    buf
  else
    let off := destOffset width xoff yoff x y
    let ioff := (y * img.width + x) * img.depth
    if img.depth = 4 then
      blendRGBA buf off (getByte img.buf (ioff + 0)) (getByte img.buf (ioff + 1))
        (getByte img.buf (ioff + 2)) (getByte img.buf (ioff + 3))
    else if img.depth = 3 then
      writeRGB buf off (getByte img.buf (ioff + 0)) (getByte img.buf (ioff + 1))
        (getByte img.buf (ioff + 2))
    else
      writeGray buf off (getByte img.buf ioff)

/-- `stitch.c` lines 520-565: the full per-tile placement double loop
(outer loop over rows `y`, inner loop over columns `x`, as in the source). -/
def placeTile (width height : ℕ) (img : Image) (xoff yoff : ℤ)
    (buf : List ℕ) : List ℕ :=
  (List.range img.height).foldl
    (fun b y =>
      (List.range img.width).foldl
        (fun b2 x => placePixel width height img xoff yoff b2 x y) b)
    buf

/-- The PNG signature bytes tested at `stitch.c` line 493. -/
def pngMagicBytes : List ℕ := [137, 80, 78, 71]

/-- The JPEG signature bytes tested at `stitch.c` line 495. -/
def jpegMagicBytes : List ℕ := [255, 216]

/-- Result of the magic-byte dispatch on a fetched tile's bytes. -/
inductive FetchFormat where
  | png
  | jpeg
  | unrecognized
deriving DecidableEq, Repr

/-- `stitch.c` lines 493-498: dispatch on the magic bytes of the fetched
data. -/
def classifyTileBytes (data : List ℕ) : FetchFormat :=
  if 4 ≤ data.length ∧ data.take 4 = pngMagicBytes then .png
  else if 2 ≤ data.length ∧ data.take 2 = jpegMagicBytes then .jpeg
  else .unrecognized

/-- Outcome of one iteration of the per-tile fetch loop. -/
inductive TileStepResult where
  | placed (canvas : List ℕ)
  | skipped (canvas : List ℕ)
  | aborted
deriving DecidableEq, Repr

/-- `stitch.c` lines 493-565: one iteration of the per-tile loop after the
fetch.  Unrecognized magic bytes hit the `continue` at line 502 (the tile is
skipped and the loop goes on); a decoder returning null aborts (line 509);
a size mismatch aborts (line 517); otherwise the tile is placed.  The
decoders are collaborator parameters returning `Option Image`. -/
def tileStep (width height tilesize : ℕ) (xoff yoff : ℤ)
    (decodePng decodeJpeg : List ℕ → Option Image)
    (canvas data : List ℕ) : TileStepResult :=
  match classifyTileBytes data with
  | .unrecognized => .skipped canvas
  | .png =>
    match decodePng data with
    | none => .aborted
    | some img =>
      if img.height ≠ tilesize ∨ img.width ≠ tilesize then .aborted
      else .placed (placeTile width height img xoff yoff canvas)
  | .jpeg =>
    match decodeJpeg data with
    | none => .aborted
    | some img =>
      if img.height ≠ tilesize ∨ img.width ≠ tilesize then .aborted
      else .placed (placeTile width height img xoff yoff canvas)

/-- One RGBA canvas pixel, the 4-byte group at a stride-4 offset of the flat
canvas buffer.  The elevation pass (`stitch.c` lines 578-626) reads and
writes the canvas only in whole such groups. -/
structure Pix where
  r : ℕ
  g : ℕ
  b : ℕ
  a : ℕ
deriving DecidableEq, Repr

/-- `stitch.c` lines 591 and 621: the packed 24-bit elevation value
`(buf[offset] << 16) + (buf[offset+1] << 8) + buf[offset+2]`. -/
def packedElevation (p : Pix) : ℕ := p.r * 65536 + p.g * 256 + p.b

/-- The accumulator of the first elevation pass:
`min_elevation`, `max_elevation`, `avg_elevation`, `counter`
(`stitch.c` lines 579-587). -/
structure ElevStats where
  minElev : ℕ
  maxElev : ℕ
  avgElev : ℚ
  counter : ℕ
deriving DecidableEq, Repr

/-- `stitch.c` lines 589-602, the body of pass 1 at one pixel: update the
running minimum and maximum and the incremental mean
`avg += (value - avg) / counter`. -/
def statsStep (s : ElevStats) (p : Pix) : ElevStats :=
  let v := packedElevation p
  let mn := if v < s.minElev then v else s.minElev
  let mx := if s.maxElev < v then v else s.maxElev
  let c := s.counter + 1
  ⟨mn, mx, s.avgElev + ((v : ℚ) - s.avgElev) / (c : ℚ), c⟩

/-- Pass 1 over the whole canvas, starting from the initial accumulator
`min = 0xFFFFFF, max = 0, avg = 0, counter = 0` (`stitch.c` lines 584-587). -/
def elevStats (canvas : List Pix) : ElevStats :=
  canvas.foldl statsStep ⟨16777215, 0, 0, 0⟩

/-- `stitch.c` lines 611-615: the scale factor the source calls `ratio`,
`255 / (max - min)` when `max > min`, else `1`. -/
def rscale (s : ElevStats) : ℚ :=
  if s.minElev < s.maxElev then 255 / ((s.maxElev : ℚ) - (s.minElev : ℚ)) else 1

/-- C `round()` (half away from zero) of a nonnegative `double`, then the
conversion to `unsigned char`; both are exact for the in-range nonnegative
values produced by the normalization pass. -/
def roundByte (q : ℚ) : ℕ := (⌊q + 1 / 2⌋).toNat

/-- `stitch.c` lines 619-625, pass 2 at one pixel: rewrite R = G = B to
`round((value - min) * ratio)`; the alpha byte at `offset + 3` is not
touched. -/
def normalizePixel (mn : ℕ) (scale : ℚ) (p : Pix) : Pix :=
  let g := roundByte (((packedElevation p : ℚ) - (mn : ℕ)) * scale)
  ⟨g, g, g, p.a⟩

/-- The full elevation normalization pass (`stitch.c` lines 578-626):
compute the statistics, then rewrite every pixel. -/
def elevationPass (canvas : List Pix) : List Pix :=
  canvas.map (normalizePixel (elevStats canvas).minElev (rscale (elevStats canvas)))

/-- `stitch.c` lines 345-355: the corner normalization applied to the four
parsed coordinate arguments, swapping each axis so that min ≤ max.
Returns `(minlat, minlon, maxlat, maxlon)`. -/
def normalizeBox (la1 lo1 la2 lo2 : ℚ) : ℚ × ℚ × ℚ × ℚ :=
  let pa := if la2 < la1 then (la2, la1) else (la1, la2)
  let po := if lo2 < lo1 then (lo2, lo1) else (lo1, lo2)
  (pa.1, po.1, pa.2, po.2)

/-- `stitch.c` lines 364-366: in centered mode, the center point handed to
`latlon2tile` is `(minlat, minlon)` **after** the swap of lines 345-355 has
already run on the raw arguments. -/
def resolvedCenter (la1 lo1 la2 lo2 : ℚ) : ℚ × ℚ :=
  ((normalizeBox la1 lo1 la2 lo2).1, (normalizeBox la1 lo1 la2 lo2).2.1)

/-- The configuration failures of `stitch.c`: invalid zoom (line 340),
non-positive centered width/height (line 371), canvas size guard
(line 415). -/
inductive ConfigError where
  | invalidZoom
  | dimNotPositive
  | canvasTooBig
deriving DecidableEq, Repr

/-- Result of a run: either a configuration failure (the process exits
before the canvas buffer exists) or the finished canvas. -/
inductive RunResult where
  | failed (e : ConfigError)
  | finished (canvas : List ℕ)
deriving DecidableEq, Repr

/-- The configuration checks of `main` in source order, followed by the
zero-initialized canvas allocation (lines 420-421) and the assembly and
output stages (abstracted into the `assemble` collaborator): the zoom check
(lines 340-343), the centered-mode width/height check (lines 371-374) and
the `width * height > 10000 * 10000` size guard (lines 414-418) each exit
the process before the canvas buffer is allocated. -/
def runStitch (zoom : ℤ) (centered : Bool) (wArg hArg : ℤ) (width height : ℤ)
    (assemble : List ℕ → List ℕ) : RunResult :=
  if zoom < 0 then .failed .invalidZoom
  else if centered = true ∧ (wArg ≤ 0 ∨ hArg ≤ 0) then .failed .dimNotPositive
  else if 10000 * 10000 < width * height then .failed .canvasTooBig
  else .finished (assemble (List.replicate ((width * height).toNat * 4) 0))

open Real in
/-- `stitch.c` lines 105-111, the x-component of `latlon2tile`:
`*x = n * ((lon + 180) / 360)` with `n = 2^zoom`, converted to unsigned
(truncation), modelled by `Int.floor` (exact real arithmetic). -/
noncomputable def latlon2tileX (lon : ℝ) (zoom : ℕ) : ℤ :=
  ⌊(2 ^ zoom : ℝ) * ((lon + 180) / 360)⌋

open Real in
/-- `stitch.c` lines 105-111, the y-component of `latlon2tile`:
`*y = n * (1 - (log(tan(lat_rad) + 1 / cos(lat_rad)) / pi)) / 2` with
`lat_rad = lat * pi / 180` and `n = 2^zoom`, converted to unsigned
(truncation), modelled by `Int.floor` (exact real arithmetic). -/
noncomputable def latlon2tileY (lat : ℝ) (zoom : ℕ) : ℤ :=
  ⌊(2 ^ zoom : ℝ) *
      (1 - Real.log (Real.tan (lat * π / 180) + 1 / Real.cos (lat * π / 180)) / π) / 2⌋

open Real in
/-- `stitch.c` lines 114-119, the longitude component of `tile2latlon`:
`*lon = 360.0 * x / n - 180.0`. -/
noncomputable def tile2latlonLon (x : ℕ) (zoom : ℕ) : ℝ :=
  360 * x / (2 ^ zoom : ℝ) - 180

open Real in
/-- `stitch.c` lines 114-119, the latitude component of `tile2latlon`:
`lat_rad = atan(sinh(pi * (1 - 2.0 * y / n)))`, `*lat = lat_rad * 180 / pi`. -/
noncomputable def tile2latlonLat (y : ℕ) (zoom : ℕ) : ℝ :=
  Real.arctan (Real.sinh (π * (1 - 2 * y / (2 ^ zoom : ℝ)))) * 180 / π

/-- The zoom-32 tile-y value of a latitude, as the unsigned int `y` of
`latlon2tile(lat, lon, 32, &x, &y)` (`stitch.c` lines 384-385). -/
noncomputable def tileY32 (lat : ℝ) : ℕ := (latlon2tileY lat 32).toNat

/-- `stitch.c` lines 388-391: the requested-zoom tile index obtained from a
zoom-32 value by `y >> (32 - zoom)`. -/
def tileIndexAtZoom (y32 : ℕ) (zoom : ℕ) : ℕ := y32 >>> (32 - zoom)

/-- A left fold leaves its initial value unchanged when every step does. -/
theorem foldl_eq_self {α β : Type} (f : β → α → β) (l : List α) (b : β)
    (h : ∀ b2, ∀ a ∈ l, f b2 a = b2) : l.foldl f b = b := by
  induction l generalizing b with
  | nil => rfl
  | cons hd tl ih =>
    rw [List.foldl_cons, h b hd (List.mem_cons_self hd tl)]
    exact ih b fun b2 a ha => h b2 a (List.mem_cons_of_mem hd ha)

/-- C1: evaluation of the depth-4 blend at a failing input.  Blending a fully
transparent source pixel (alpha = 0) over canvas pixel 1 (bytes 4..7,
value (10,20,30,255)) of a five-pixel canvas changes the pixel: its blue
byte becomes 99 (the value of byte 18, read through the `offset * 4 + 2`
indexing at `stitch.c` line 536) instead of staying 30.  The claim that a
fully transparent source leaves the destination unchanged therefore fails on
the code as written. -/
theorem C1_transparent_blend_corrupts_blue :
    blendRGBA [0, 0, 0, 255, 10, 20, 30, 255, 0, 0, 0, 255, 0, 0, 0, 255, 0, 0, 99, 255]
        4 0 0 0 0 =
      [0, 0, 0, 255, 10, 20, 99, 255, 0, 0, 0, 255, 0, 0, 0, 255, 0, 0, 99, 255] ∧
    getByte [0, 0, 0, 255, 10, 20, 30, 255, 0, 0, 0, 255, 0, 0, 0, 255, 0, 0, 99, 255] 6 =
      30 := by
  refine ⟨?_, by decide⟩
  simp only [blendRGBA, getByte]
  norm_num [toByte]
  decide

/-- C2 counterexample: placing a depth-2 (gray + alpha) tile writes pixels to
the canvas and raises no error, refuting the claim that a channel depth other
than 1, 3 or 4 fails fast and writes nothing: the single-pixel canvas changes
from (1,2,3,4) to (7,7,7,255). -/
theorem C2_counterexample :
    placeTile 1 1 ⟨[7, 9], 2, 1, 1⟩ 0 0 [1, 2, 3, 4] = [7, 7, 7, 255] ∧
    ([7, 7, 7, 255] : List ℕ) ≠ [1, 2, 3, 4] := by
  constructor <;> decide

/-- C2 (amended): any channel depth other than 4 and 3 is handled by the
final `else` branch of the compositor (`stitch.c` lines 558-562): channel 0
is replicated into R, G, B and alpha is forced to 255; no error path
exists for an unsupported depth. -/
theorem C2_unsupported_depth_gray_branch (width height : ℕ) (img : Image)
    (xoff yoff : ℤ) (buf : List ℕ) (x y : ℕ)
    (h4 : img.depth ≠ 4) (h3 : img.depth ≠ 3)
    (hin : ¬ ((x : ℤ) + xoff < 0 ∨ (y : ℤ) + yoff < 0 ∨ (width : ℤ) ≤ (x : ℤ) + xoff ∨
        (height : ℤ) ≤ (y : ℤ) + yoff)) :
    placePixel width height img xoff yoff buf x y =
      writeGray buf (destOffset width xoff yoff x y)
        (getByte img.buf ((y * img.width + x) * img.depth)) := by
  simp only [placePixel]
  rw [if_neg hin, if_neg h4, if_neg h3]

/-- Witness for C2 (amended) at a concrete depth-2 tile placement. -/
theorem C2_unsupported_depth_gray_branch_witness :
    placePixel 1 1 ⟨[7, 9], 2, 1, 1⟩ 0 0 [1, 2, 3, 4] 0 0 =
      writeGray [1, 2, 3, 4] (destOffset 1 0 0 0 0) (getByte [7, 9] ((0 * 1 + 0) * 2)) :=
  C2_unsupported_depth_gray_branch 1 1 ⟨[7, 9], 2, 1, 1⟩ 0 0 [1, 2, 3, 4] 0 0
    (by decide) (by decide) (by decide)

/-- C3 counterexample: fetched bytes starting with "GIF8" are not recognized
as PNG or JPEG; the loop body hits the `continue` at `stitch.c` line 502 and
returns the canvas unchanged as a skipped tile — it does not abort.  This
refutes the claim that unrecognized tile bytes abort the run. -/
theorem C3_counterexample :
    classifyTileBytes [71, 73, 70, 56] = .unrecognized ∧
    tileStep 4 2 256 0 0 (fun _ => none) (fun _ => none) [0, 0, 0, 0] [71, 73, 70, 56] =
      .skipped [0, 0, 0, 0] ∧
    TileStepResult.skipped [0, 0, 0, 0] ≠ TileStepResult.aborted := by
  refine ⟨by decide, by decide, by decide⟩

/-- C3 (amended): bytes not recognized as PNG or JPEG make the loop skip the
tile and continue, leaving the canvas unchanged for that tile (a hole); a
decoder failure (null image) on recognized bytes aborts the run. -/
theorem C3_unrecognized_skips (width height tilesize : ℕ) (xoff yoff : ℤ)
    (decodePng decodeJpeg : List ℕ → Option Image) (canvas data : List ℕ) :
    (classifyTileBytes data = .unrecognized →
      tileStep width height tilesize xoff yoff decodePng decodeJpeg canvas data =
        .skipped canvas) ∧
    (classifyTileBytes data = .png → decodePng data = none →
      tileStep width height tilesize xoff yoff decodePng decodeJpeg canvas data =
        .aborted) ∧
    (classifyTileBytes data = .jpeg → decodeJpeg data = none →
      tileStep width height tilesize xoff yoff decodePng decodeJpeg canvas data =
        .aborted) := by
  refine ⟨fun h => by simp [tileStep, h], fun h h2 => by simp [tileStep, h, h2],
    fun h h2 => by simp [tileStep, h, h2]⟩

/-- Witness for C3 (amended) at concrete unrecognized bytes. -/
theorem C3_unrecognized_skips_witness :
    tileStep 1 1 256 0 0 (fun _ => none) (fun _ => none) [5] [0, 1, 2] = .skipped [5] :=
  (C3_unrecognized_skips 1 1 256 0 0 (fun _ => none) (fun _ => none) [5] [0, 1, 2]).1
    (by decide)

/-- C5: destination pixels outside `[0,width) x [0,height)` are silently
skipped by the per-pixel clipping test (`stitch.c` lines 525-527), and a tile
whose offset puts it entirely outside the canvas leaves the canvas buffer
unchanged. -/
theorem C5_clipping (width height : ℕ) (img : Image) (xoff yoff : ℤ) (buf : List ℕ) :
    (∀ b : List ℕ, ∀ x y : ℕ,
        ((x : ℤ) + xoff < 0 ∨ (y : ℤ) + yoff < 0 ∨ (width : ℤ) ≤ (x : ℤ) + xoff ∨
          (height : ℤ) ≤ (y : ℤ) + yoff) →
        placePixel width height img xoff yoff b x y = b) ∧
    (((width : ℤ) ≤ xoff ∨ xoff + (img.width : ℤ) ≤ 0 ∨ (height : ℤ) ≤ yoff ∨
        yoff + (img.height : ℤ) ≤ 0) →
      placeTile width height img xoff yoff buf = buf) := by
  have hpp : ∀ b : List ℕ, ∀ x y : ℕ,
      ((x : ℤ) + xoff < 0 ∨ (y : ℤ) + yoff < 0 ∨ (width : ℤ) ≤ (x : ℤ) + xoff ∨
        (height : ℤ) ≤ (y : ℤ) + yoff) →
      placePixel width height img xoff yoff b x y = b := by
    intro b x y h
    simp only [placePixel]
    rw [if_pos h]
  refine ⟨hpp, fun h => ?_⟩
  unfold placeTile
  apply foldl_eq_self
  intro b y hy
  apply foldl_eq_self
  intro b2 x hx
  have hx2 : x < img.width := List.mem_range.mp hx
  have hy2 : y < img.height := List.mem_range.mp hy
  apply hpp
  rcases h with h | h | h | h
  · exact Or.inr (Or.inr (Or.inl (by omega)))
  · exact Or.inl (by omega)
  · exact Or.inr (Or.inr (Or.inr (by omega)))
  · exact Or.inr (Or.inl (by omega))

/-- Witness for C5: a 2x2 depth-3 tile placed with x-offset 5 on a 2x2 canvas
is entirely clipped away. -/
theorem C5_clipping_witness :
    placeTile 2 2 ⟨[1, 2, 3, 4, 5, 6, 7, 8, 9, 10, 11, 12], 3, 2, 2⟩ 5 0 [9, 9, 9, 9] =
      [9, 9, 9, 9] :=
  (C5_clipping 2 2 ⟨[1, 2, 3, 4, 5, 6, 7, 8, 9, 10, 11, 12], 3, 2, 2⟩ 5 0 [9, 9, 9, 9]).2
    (Or.inl (by norm_num))

/-- C7: for any two corner pairs, the resolved bounding box has
minLat ≤ maxLat and minLon ≤ maxLon (`stitch.c` lines 345-355). -/
theorem C7_box_normalized (la1 lo1 la2 lo2 : ℚ) :
    (normalizeBox la1 lo1 la2 lo2).1 ≤ (normalizeBox la1 lo1 la2 lo2).2.2.1 ∧
    (normalizeBox la1 lo1 la2 lo2).2.1 ≤ (normalizeBox la1 lo1 la2 lo2).2.2.2 := by
  simp only [normalizeBox]
  split_ifs <;> constructor <;> dsimp <;> linarith

/-- C8: each configuration error — zoom < 0, centered-mode width or
height ≤ 0, canvas larger than 100,000,000 pixels — makes the run fail with
the corresponding error, in source order, and a failed run carries no
canvas. -/
theorem C8_config_errors (zoom : ℤ) (centered : Bool) (wArg hArg width height : ℤ)
    (assemble : List ℕ → List ℕ) :
    (zoom < 0 →
      runStitch zoom centered wArg hArg width height assemble = .failed .invalidZoom) ∧
    (0 ≤ zoom → centered = true → wArg ≤ 0 ∨ hArg ≤ 0 →
      runStitch zoom centered wArg hArg width height assemble = .failed .dimNotPositive) ∧
    (0 ≤ zoom → ¬ (centered = true ∧ (wArg ≤ 0 ∨ hArg ≤ 0)) →
      10000 * 10000 < width * height →
      runStitch zoom centered wArg hArg width height assemble = .failed .canvasTooBig) ∧
    (∀ (e : ConfigError) (c : List ℕ), RunResult.failed e ≠ RunResult.finished c) := by
  refine ⟨fun h => ?_, fun h0 hc hd => ?_, fun h0 h2 h3 => ?_, fun e c => by simp⟩
  · simp only [runStitch]
    rw [if_pos h]
  · simp only [runStitch]
    rw [if_neg (by omega), if_pos ⟨hc, hd⟩]
  · simp only [runStitch]
    rw [if_neg (by omega), if_neg h2, if_pos h3]

/-- Witness for C8: the three configuration errors at concrete inputs. -/
theorem C8_config_errors_witness :
    runStitch (-1) true 5 5 10 10 id = .failed .invalidZoom ∧
    runStitch 3 true 0 5 10 10 id = .failed .dimNotPositive ∧
    runStitch 3 false 5 5 10001 10000 id = .failed .canvasTooBig :=
  ⟨(C8_config_errors (-1) true 5 5 10 10 id).1 (by norm_num),
   (C8_config_errors 3 true 0 5 10 10 id).2.1 (by norm_num) rfl (Or.inl (by norm_num)),
   (C8_config_errors 3 false 5 5 10001 10000 id).2.2.1 (by norm_num) (by simp)
     (by norm_num)⟩

/-- C10: the corner swap of `stitch.c` lines 345-355 runs on the raw
arguments before mode dispatch, so in centered mode, whenever the given
center latitude exceeds the width argument read as a double (or the center
longitude exceeds the height argument), the resolver centers on the swapped
value instead of the given center. -/
theorem C10_centered_swap (la1 lo1 la2 lo2 : ℚ) :
    (la2 < la1 →
      (resolvedCenter la1 lo1 la2 lo2).1 = la2 ∧
        (resolvedCenter la1 lo1 la2 lo2).1 ≠ la1) ∧
    (lo2 < lo1 →
      (resolvedCenter la1 lo1 la2 lo2).2 = lo2 ∧
        (resolvedCenter la1 lo1 la2 lo2).2 ≠ lo1) := by
  refine ⟨fun h => ?_, fun h => ?_⟩
  · simp only [resolvedCenter, normalizeBox]
    rw [if_pos h]
    exact ⟨rfl, ne_of_lt h⟩
  · simp only [resolvedCenter, normalizeBox]
    rw [if_pos h]
    exact ⟨rfl, ne_of_lt h⟩

/-- Witness for C10: center latitude 50 with width argument 10 makes the
resolver center on latitude 10. -/
theorem C10_centered_swap_witness :
    (resolvedCenter 50 8 10 6).1 = 10 ∧ (resolvedCenter 50 8 10 6).1 ≠ 50 :=
  (C10_centered_swap 50 8 10 6).1 (by norm_num)

/-- The running minimum of pass 1 never increases along the fold. -/
theorem statsFold_min_le (l : List Pix) (s : ElevStats) :
    (l.foldl statsStep s).minElev ≤ s.minElev := by
  induction l generalizing s with
  | nil => exact le_refl _
  | cons hd tl ih =>
    refine le_trans (ih (statsStep s hd)) ?_
    simp only [statsStep]
    split <;> omega

/-- The running maximum of pass 1 never decreases along the fold. -/
theorem statsFold_max_ge (l : List Pix) (s : ElevStats) :
    s.maxElev ≤ (l.foldl statsStep s).maxElev := by
  induction l generalizing s with
  | nil => exact le_refl _
  | cons hd tl ih =>
    refine le_trans ?_ (ih (statsStep s hd))
    simp only [statsStep]
    split <;> omega

/-- After pass 1, the accumulated minimum and maximum bound the packed value
of every scanned pixel. -/
theorem statsFold_bounds (l : List Pix) (s : ElevStats) :
    ∀ p ∈ l, (l.foldl statsStep s).minElev ≤ packedElevation p ∧
      packedElevation p ≤ (l.foldl statsStep s).maxElev := by
  induction l generalizing s with
  | nil => intro p hp; cases hp
  | cons hd tl ih =>
    intro p hp
    rcases List.mem_cons.mp hp with h | h
    · subst h
      constructor
      · refine le_trans (statsFold_min_le tl (statsStep s p)) ?_
        simp only [statsStep]
        split <;> omega
      · refine le_trans ?_ (statsFold_max_ge tl (statsStep s p))
        simp only [statsStep]
        split <;> omega
    · exact ih (statsStep s hd) p h

/-- An in-range `getD` read is a member of the list. -/
theorem getD_mem_of_lt {α : Type} (l : List α) (i : ℕ) (d : α)
    (hi : i < l.length) : l.getD i d ∈ l := by
  rw [List.getD_eq_getElem l d hi]
  exact List.getElem_mem hi

/-- C4: after the elevation normalization pass, a pixel that held the
pre-pass minimum packed value ends with R = G = B = 0, a pixel that held the
maximum ends with R = G = B = 255 when max > min, every pixel ends with
R = G = B = 0 when max = min, and the alpha byte of every pixel is
unchanged. -/
theorem C4_elevation_normalization (canvas : List Pix) (i : ℕ)
    (hi : i < canvas.length) :
    ((elevationPass canvas).getD i ⟨0, 0, 0, 0⟩).a = (canvas.getD i ⟨0, 0, 0, 0⟩).a ∧
    (packedElevation (canvas.getD i ⟨0, 0, 0, 0⟩) = (elevStats canvas).minElev →
      (elevationPass canvas).getD i ⟨0, 0, 0, 0⟩ =
        ⟨0, 0, 0, (canvas.getD i ⟨0, 0, 0, 0⟩).a⟩) ∧
    ((elevStats canvas).minElev < (elevStats canvas).maxElev →
      packedElevation (canvas.getD i ⟨0, 0, 0, 0⟩) = (elevStats canvas).maxElev →
      (elevationPass canvas).getD i ⟨0, 0, 0, 0⟩ =
        ⟨255, 255, 255, (canvas.getD i ⟨0, 0, 0, 0⟩).a⟩) ∧
    ((elevStats canvas).maxElev = (elevStats canvas).minElev →
      (elevationPass canvas).getD i ⟨0, 0, 0, 0⟩ =
        ⟨0, 0, 0, (canvas.getD i ⟨0, 0, 0, 0⟩).a⟩) := by
  set mn := (elevStats canvas).minElev with hmn
  set mx := (elevStats canvas).maxElev with hmx
  set p := canvas.getD i ⟨0, 0, 0, 0⟩ with hpdef
  have hp : p ∈ canvas := getD_mem_of_lt canvas i ⟨0, 0, 0, 0⟩ hi
  have hbounds : mn ≤ packedElevation p ∧ packedElevation p ≤ mx :=
    statsFold_bounds canvas ⟨16777215, 0, 0, 0⟩ p hp
  have hres : (elevationPass canvas).getD i ⟨0, 0, 0, 0⟩ =
      normalizePixel mn (rscale (elevStats canvas)) p := by
    rw [elevationPass, ← hmn,
      List.getD_eq_getElem _ _ (by simpa using hi), List.getElem_map,
      hpdef, List.getD_eq_getElem canvas _ hi]
  rw [hres]
  refine ⟨rfl, fun hvmin => ?_, fun hlt hvmax => ?_, fun heq => ?_⟩
  · simp only [normalizePixel, hvmin]
    norm_num [roundByte]
  · simp only [normalizePixel, hvmax, rscale, ← hmn, ← hmx, if_pos hlt]
    have hne : (mx : ℚ) - (mn : ℚ) ≠ 0 := by
      have : (mn : ℚ) < (mx : ℚ) := by exact_mod_cast hlt
      linarith
    rw [show ((mx : ℕ) : ℚ) - ((mn : ℕ) : ℚ) = (mx : ℚ) - (mn : ℚ) from rfl]
    rw [show ((mx : ℚ) - (mn : ℚ)) * (255 / ((mx : ℚ) - (mn : ℚ))) =
        255 * (((mx : ℚ) - (mn : ℚ)) / ((mx : ℚ) - (mn : ℚ))) by ring]
    rw [div_self hne]
    norm_num [roundByte]
    decide
  · have hv : packedElevation p = mn := by omega
    simp only [normalizePixel, hv]
    norm_num [roundByte]

/-- Witness for C4 at a concrete two-pixel canvas with distinct packed
values 5 and 9: pixel 0 holds the minimum. -/
theorem C4_elevation_normalization_witness :
    (0 : ℕ) < ([⟨0, 0, 5, 111⟩, ⟨0, 0, 9, 222⟩] : List Pix).length ∧
    (((elevationPass [⟨0, 0, 5, 111⟩, ⟨0, 0, 9, 222⟩]).getD 0 ⟨0, 0, 0, 0⟩).a =
        (([⟨0, 0, 5, 111⟩, ⟨0, 0, 9, 222⟩] : List Pix).getD 0 ⟨0, 0, 0, 0⟩).a ∧
      (packedElevation (([⟨0, 0, 5, 111⟩, ⟨0, 0, 9, 222⟩] : List Pix).getD 0 ⟨0, 0, 0, 0⟩) =
          (elevStats [⟨0, 0, 5, 111⟩, ⟨0, 0, 9, 222⟩]).minElev →
        (elevationPass [⟨0, 0, 5, 111⟩, ⟨0, 0, 9, 222⟩]).getD 0 ⟨0, 0, 0, 0⟩ =
          ⟨0, 0, 0, (([⟨0, 0, 5, 111⟩, ⟨0, 0, 9, 222⟩] : List Pix).getD 0 ⟨0, 0, 0, 0⟩).a⟩) ∧
      ((elevStats [⟨0, 0, 5, 111⟩, ⟨0, 0, 9, 222⟩]).minElev <
          (elevStats [⟨0, 0, 5, 111⟩, ⟨0, 0, 9, 222⟩]).maxElev →
        packedElevation (([⟨0, 0, 5, 111⟩, ⟨0, 0, 9, 222⟩] : List Pix).getD 0 ⟨0, 0, 0, 0⟩) =
          (elevStats [⟨0, 0, 5, 111⟩, ⟨0, 0, 9, 222⟩]).maxElev →
        (elevationPass [⟨0, 0, 5, 111⟩, ⟨0, 0, 9, 222⟩]).getD 0 ⟨0, 0, 0, 0⟩ =
          ⟨255, 255, 255,
            (([⟨0, 0, 5, 111⟩, ⟨0, 0, 9, 222⟩] : List Pix).getD 0 ⟨0, 0, 0, 0⟩).a⟩) ∧
      ((elevStats [⟨0, 0, 5, 111⟩, ⟨0, 0, 9, 222⟩]).maxElev =
          (elevStats [⟨0, 0, 5, 111⟩, ⟨0, 0, 9, 222⟩]).minElev →
        (elevationPass [⟨0, 0, 5, 111⟩, ⟨0, 0, 9, 222⟩]).getD 0 ⟨0, 0, 0, 0⟩ =
          ⟨0, 0, 0, (([⟨0, 0, 5, 111⟩, ⟨0, 0, 9, 222⟩] : List Pix).getD 0 ⟨0, 0, 0, 0⟩).a⟩)) :=
  ⟨by decide, C4_elevation_normalization [⟨0, 0, 5, 111⟩, ⟨0, 0, 9, 222⟩] 0 (by decide)⟩

open Real

/-- The Mercator y-expression of `latlon2tile` evaluated at a latitude of
the form produced by `tile2latlon`: for any `t`,
`log(tan(atan(sinh t)) + 1/cos(atan(sinh t))) = t`. -/
theorem mercator_atan_sinh (t : ℝ) :
    Real.log (Real.tan (Real.arctan (Real.sinh t)) +
      1 / Real.cos (Real.arctan (Real.sinh t))) = t := by
  rw [Real.tan_arctan, Real.cos_arctan, one_div_one_div]
  rw [show (1 : ℝ) + Real.sinh t ^ 2 = Real.cosh t ^ 2 from (Real.cosh_sq' t).symm]
  rw [Real.sqrt_sq (Real.cosh_pos t).le, Real.sinh_add_cosh, Real.log_exp]

/-- On the principal branch, the Mercator y-expression is the inverse
hyperbolic sine of the tangent: `log(tan θ + 1/cos θ) = arsinh(tan θ)`. -/
theorem mercator_arsinh (θ : ℝ) (h : θ ∈ Set.Ioo (-(π / 2)) (π / 2)) :
    Real.log (Real.tan θ + 1 / Real.cos θ) = Real.arsinh (Real.tan θ) := by
  have hc : 0 < Real.cos θ := Real.cos_pos_of_mem_Ioo h
  have h2 : 1 + Real.tan θ ^ 2 = (1 / Real.cos θ) ^ 2 := by
    rw [Real.tan_eq_sin_div_cos]
    field_simp
  have h1 : 1 / Real.cos θ = Real.sqrt (1 + Real.tan θ ^ 2) := by
    rw [h2, Real.sqrt_sq (by positivity)]
  rw [h1]
  rfl

/-- C6 counterexample: the point roundtrip fails far beyond floating-point
tolerance because `latlon2tile` truncates to integer tile indices: at
zoom 0, longitude 100 maps to tile x = 0, which maps back to
longitude -180, an error of 280 degrees. -/
theorem C6_counterexample :
    tile2latlonLon (latlon2tileX 100 0).toNat 0 = -180 ∧
    |(-180 : ℝ) - 100| = 280 := by
  have h1 : latlon2tileX 100 0 = 0 := by
    unfold latlon2tileX
    norm_num
  rw [h1]
  constructor
  · unfold tile2latlonLon
    norm_num
  · norm_num

/-- C6 (amended): the tile-index roundtrip is exact in exact real
arithmetic: for every tile coordinate (x, y) and zoom z,
`latlon2tile(tile2latlon(x, y, z), z) = (x, y)` — in particular it rounds
back within 1 unit; the point roundtrip holds only up to tile-grid
quantization, not floating-point tolerance. -/
theorem C6_tile_roundtrip (x y zoom : ℕ) :
    latlon2tileX (tile2latlonLon x zoom) zoom = (x : ℤ) ∧
    latlon2tileY (tile2latlonLat y zoom) zoom = (y : ℤ) := by
  have h2 : (2 : ℝ) ^ zoom ≠ 0 := by positivity
  have hπ : (π : ℝ) ≠ 0 := Real.pi_ne_zero
  constructor
  · unfold latlon2tileX tile2latlonLon
    rw [show (2 ^ zoom : ℝ) * ((360 * (x : ℝ) / (2 ^ zoom : ℝ) - 180 + 180) / 360) =
        (x : ℝ) by field_simp; ring]
    exact Int.floor_natCast x
  · unfold latlon2tileY tile2latlonLat
    rw [show Real.arctan (Real.sinh (π * (1 - 2 * (y : ℝ) / (2 ^ zoom : ℝ)))) * 180 / π *
          π / 180 =
        Real.arctan (Real.sinh (π * (1 - 2 * (y : ℝ) / (2 ^ zoom : ℝ)))) by field_simp]
    rw [mercator_atan_sinh]
    rw [show (2 ^ zoom : ℝ) *
          (1 - π * (1 - 2 * (y : ℝ) / (2 ^ zoom : ℝ)) / π) / 2 = (y : ℝ) by
        field_simp; ring]
    exact Int.floor_natCast y

/-- C9: for a normalized box with minLat ≤ maxLat inside the projection's
principal latitude range, the zoom-32 tile-y of the minLat corner, shifted
down to the requested zoom, is at least that of the maxLat corner (tile-y
grows southward). -/
theorem C9_tile_y_order (a b : ℝ) (zoom : ℕ) (ha : -90 < a) (hab : a ≤ b)
    (hb : b < 90) :
    tileIndexAtZoom (tileY32 b) zoom ≤ tileIndexAtZoom (tileY32 a) zoom := by
  have hπ := Real.pi_pos
  have hmem : ∀ c : ℝ, -90 < c → c < 90 → c * π / 180 ∈ Set.Ioo (-(π / 2)) (π / 2) := by
    intro c h1 h2
    exact Set.mem_Ioo.mpr ⟨by nlinarith, by nlinarith⟩
  have hA := hmem a ha (lt_of_le_of_lt hab hb)
  have hB := hmem b (lt_of_lt_of_le ha hab) hb
  have htan : Real.tan (a * π / 180) ≤ Real.tan (b * π / 180) :=
    Real.strictMonoOn_tan.monotoneOn hA hB (by nlinarith)
  have hlog : Real.log (Real.tan (a * π / 180) + 1 / Real.cos (a * π / 180)) ≤
      Real.log (Real.tan (b * π / 180) + 1 / Real.cos (b * π / 180)) := by
    rw [mercator_arsinh _ hA, mercator_arsinh _ hB]
    exact Real.arsinh_le_arsinh.mpr htan
  have hy : latlon2tileY b 32 ≤ latlon2tileY a 32 := by
    unfold latlon2tileY
    apply Int.floor_le_floor
    have hd : Real.log (Real.tan (a * π / 180) + 1 / Real.cos (a * π / 180)) / π ≤
        Real.log (Real.tan (b * π / 180) + 1 / Real.cos (b * π / 180)) / π := by
      gcongr
    have h32 : (0 : ℝ) < 2 ^ 32 := by positivity
    nlinarith [hd, h32]
  have h6 : tileY32 b ≤ tileY32 a := Int.toNat_le_toNat hy
  unfold tileIndexAtZoom
  simp only [Nat.shiftRight_eq_div_pow]
  exact Nat.div_le_div_right h6

/-- Witness for C9 at the concrete box minLat = 0, maxLat = 45, zoom 8. -/
theorem C9_tile_y_order_witness :
    tileIndexAtZoom (tileY32 45) 8 ≤ tileIndexAtZoom (tileY32 0) 8 :=
  C9_tile_y_order 0 45 8 (by norm_num) (by norm_num) (by norm_num)

end TileStitch
